import Mathlib

/-!
Shallow embedding of the CAN hardware-abstraction interface
(`src/can.rs` of the `embedded-hal` CAN proposal) together with
theorems checking the natural-language specification against it.

The repository is an interface crate: `Id` and its `valid` method are
executable code, while `Frame`, `Filter`, `Can` and `FilteredReceiver`
are trait contracts whose behaviour is fixed by the documentation.
Definitions embedding real code are translated directly from the
source; contract behaviour that has no body in the source is modelled
from the specification and marked `Modelled from the spec:` in its
doc comment.
-/

namespace CanHal

/-- CAN identifier, from `enum Id` in `src/can.rs`: a tagged union of a
standard 11-bit variant and an extended 29-bit variant, each carrying a
`u32` value (embedded as `Nat`). Equality is structural (`derive PartialEq, Eq`). -/
inductive Id where
  | Standard (v : Nat)
  | Extended (v : Nat)
deriving DecidableEq, Repr

/-- `Id::valid` from `src/can.rs`: true when a `Standard` value is at most
`0x7FF` or an `Extended` value is at most `0x1FFF_FFFF`, false otherwise. -/
def Id.valid : Id → Bool
  | .Standard v => if v ≤ 0x7FF then true else false
  | .Extended v => if v ≤ 0x1FFFFFFF then true else false

/-- Modelled from the spec: the trait `Frame` in `src/can.rs` has no
carrier in the repository; this is the canonical record the spec
describes — an identifier, a remote flag, a data length code and a
payload of bytes (bytes embedded as `Nat`). -/
structure Frame where
  id : Id
  remote : Bool
  dlc : Nat
  data : List Nat
deriving DecidableEq, Repr

/-- Modelled from the spec: `Frame::new(id, data)` — fails (with the unit
error of the source signature `Result<Self, ()>`) when the identifier is
invalid or the data is longer than 8 bytes, and otherwise builds a data
frame whose DLC is the payload length. -/
def Frame.new (id : Id) (data : List Nat) : Except Unit Frame :=
  if id.valid = true ∧ data.length ≤ 8 then
    .ok { id := id, remote := false, dlc := data.length, data := data }
  else
    .error ()

/-- Modelled from the spec: `Frame::new_remote(id, dlc)` — fails (with the
unit error of the source signature `Result<Self, ()>`) when the identifier
is invalid or the DLC exceeds 8, and otherwise builds a remote frame with
empty data and the given DLC. -/
def Frame.new_remote (id : Id) (dlc : Nat) : Except Unit Frame :=
  if id.valid = true ∧ dlc ≤ 8 then
    .ok { id := id, remote := true, dlc := dlc, data := [] }
  else
    .error ()

/-- `Frame::is_extended`: true when the frame identifier is the
extended variant. -/
def Frame.is_extended (f : Frame) : Bool :=
  match f.id with
  | .Extended _ => true
  | .Standard _ => false

/-- `Frame::is_standard`, default body from the source: `!self.is_extended()`. -/
def Frame.is_standard (f : Frame) : Bool :=
  !f.is_extended

/-- `Frame::is_remote_frame`: whether the RTR bit is set. -/
def Frame.is_remote_frame (f : Frame) : Bool :=
  f.remote

/-- `Frame::is_data_frame`, default body from the source:
`!self.is_remote_frame()`. -/
def Frame.is_data_frame (f : Frame) : Bool :=
  !f.is_remote_frame

/-- `MaskType` from `src/can.rs`: whether each filter of a group has an
individual mask or all filters of a group share one mask. -/
inductive MaskType where
  | Individual
  | Shared
deriving DecidableEq, Repr

/-- `RtrFilterBehavior` from `src/can.rs`: the five remote-frame filter
behaviours a filter group may report. -/
inductive RtrFilterBehavior where
  | Configurable
  | ConfigurableEitherDataOrRemote
  | RemoteAlwaysAllowed
  | OnlyData
  | OnlyRemote
deriving DecidableEq, Repr

/-- Modelled from the spec: the remote-frame disposition a `Filter` value
carries after its builder calls — untouched, `allow_remote()` requested, or
`remote_only()` requested. -/
inductive RemoteDisposition where
  | Unspecified
  | AllowRemote
  | RemoteOnly
deriving DecidableEq, Repr

/-- Modelled from the spec: the trait `Filter` has no carrier in the
repository; this is the configuration record the spec describes — an
identifier, an optional mask, and the requested remote-frame disposition. -/
structure Filter where
  fid : Id
  mask : Option Nat
  disposition : RemoteDisposition
deriving DecidableEq, Repr

/-- Modelled from the spec: `Filter::new(id)` — identifier `id`, mask unset
(exact match within the identifier width), no remote disposition requested. -/
def Filter.new (id : Id) : Filter :=
  { fid := id, mask := none, disposition := .Unspecified }

/-- Modelled from the spec: `Filter::with_mask(mask)` — sets the mask used
at installation time; last write wins. -/
def Filter.with_mask (f : Filter) (mask : Nat) : Filter :=
  { f with mask := some mask }

/-- Modelled from the spec: `Filter::allow_remote()` — requests acceptance
of both data and remote frames. -/
def Filter.allow_remote (f : Filter) : Filter :=
  { f with disposition := .AllowRemote }

/-- Modelled from the spec: `Filter::remote_only()` — requests acceptance
of remote frames only. -/
def Filter.remote_only (f : Filter) : Filter :=
  { f with disposition := .RemoteOnly }

/-- Modelled from the spec: the identifier/mask matching semantics of
`Filter::with_mask` — the incoming identifier value `R` matches filter
value `F` under mask `M` when the masked bits agree, i.e. at every bit
position either the mask bit is 0 (don't-care) or the filter bit equals
the incoming bit. -/
def maskMatches (F M R : Nat) : Bool :=
  Nat.land F M == Nat.land R M

/-- Modelled from the spec: identifier matching of a whole filter — the
incoming identifier must be of the same width class as the filter's, and
match under the filter's mask; an absent mask behaves as all-ones for the
width (exact match). -/
def Filter.idMatches (f : Filter) (r : Id) : Bool :=
  match f.fid, r with
  | .Standard fv, .Standard rv => maskMatches fv (f.mask.getD 0x7FF) rv
  | .Extended fv, .Extended rv => maskMatches fv (f.mask.getD 0x1FFFFFFF) rv
  | _, _ => false

/-- Modelled from the spec: per-behaviour remote-frame acceptance — the
table of §4.3.  Given the group's `RtrFilterBehavior`, the filter's
requested disposition and whether the incoming frame is remote, decide
acceptance of the frame's kind.  For `RemoteAlwaysAllowed`, `OnlyData` and
`OnlyRemote` the requested disposition is ignored by the hardware. -/
def rtrAccepts : RtrFilterBehavior → RemoteDisposition → Bool → Bool
  | .Configurable, .Unspecified, r => !r
  | .Configurable, .AllowRemote, _ => true
  | .Configurable, .RemoteOnly, r => r
  | .ConfigurableEitherDataOrRemote, .Unspecified, r => !r
  | .ConfigurableEitherDataOrRemote, .AllowRemote, r => !r
  | .ConfigurableEitherDataOrRemote, .RemoteOnly, r => r
  | .RemoteAlwaysAllowed, _, _ => true
  | .OnlyData, _, r => !r
  | .OnlyRemote, _, r => r

/-- Modelled from the spec: full acceptance of an incoming frame by one
installed filter, within a group of the given behaviour: the identifier
must match and the frame kind must be admitted by the group's
remote-frame behaviour. -/
def filterAccepts (b : RtrFilterBehavior) (f : Filter) (fr : Frame) : Bool :=
  f.idMatches fr.id && rtrAccepts b f.disposition fr.is_remote_frame

/-- Modelled from the spec: the receive-path state of a `FilteredReceiver` —
the group's remote-frame behaviour, the list of installed filters, and the
frames pending on the receive path. -/
structure Receiver where
  behavior : RtrFilterBehavior
  filters : List Filter
  pending : List Frame
deriving Repr

/-- Modelled from the spec: a frame is admitted by the receiver when some
installed filter accepts it. -/
def Receiver.admits (r : Receiver) (fr : Frame) : Bool :=
  r.filters.any (fun f => filterAccepts r.behavior f fr)

/-- Modelled from the spec: `FilteredReceiver::clear_filters` — clears all
filters; no messages can be received anymore. -/
def Receiver.clear_filters (r : Receiver) : Receiver :=
  { r with filters := [] }

/-- Modelled from the spec: `FilteredReceiver::add_filter` — adds and
enables a filter. -/
def Receiver.add_filter (r : Receiver) (f : Filter) : Receiver :=
  { r with filters := r.filters ++ [f] }

/-- Removes the first element of the list satisfying the predicate,
returning it together with the remaining list. -/
def extractFirst (q : Frame → Bool) : List Frame → Option (Frame × List Frame)
  | [] => none
  | f :: fs =>
    if q f then some (f, fs)
    else (extractFirst q fs).map (fun p => (p.1, f :: p.2))

/-- Modelled from the spec: `Can::receive` on a filtered receiver —
returns the next pending frame admitted by the currently installed
filters (removing it), or nothing (would-block) when no pending frame is
admitted. -/
def Receiver.receive (r : Receiver) : Option Frame × Receiver :=
  match extractFirst r.admits r.pending with
  | none => (none, r)
  | some (fr, rest) => (some fr, { r with pending := rest })

/-- Modelled from the spec: the observable operations on the receive
path — arrival of a frame from the bus, `clear_filters`, `add_filter`,
and a `receive` poll. -/
inductive RxOp where
  | arrive (fr : Frame)
  | clearFilters
  | addFilter (f : Filter)
  | poll
deriving Repr

/-- Modelled from the spec: one receiver step; a `poll` additionally
yields the received frame, if any. -/
def rxStep (r : Receiver) : RxOp → Receiver × Option Frame
  | .arrive fr => ({ r with pending := r.pending ++ [fr] }, none)
  | .clearFilters => (r.clear_filters, none)
  | .addFilter f => (r.add_filter f, none)
  | .poll =>
    match r.receive with
    | (o, r2) => (r2, o)

/-- Runs a sequence of receiver operations, collecting every frame
yielded by the `poll` operations. -/
def rxRun (r : Receiver) : List RxOp → Receiver × List Frame
  | [] => (r, [])
  | op :: ops =>
    match rxStep r op with
    | (r2, o) =>
      match rxRun r2 ops with
      | (r3, outs) => (r3, o.toList ++ outs)

/-- Modelled from the spec: the state of the transmit path of a `Can`
driver — the transmit buffer, the frames observed departing on the bus (in
departure order), and a counter tagging submissions in submission order.
Buffer and departure entries are pairs of a submission tag and the frame's
identifier. -/
structure TxState where
  buffer : List (Nat × Id)
  departed : List (Nat × Id)
  counter : Nat

/-- The initial transmit state: empty buffer, nothing departed. -/
def txInit : TxState :=
  { buffer := [], departed := [], counter := 0 }

/-- Modelled from the spec: the transitions of the transmit path, for an
arbitrary driver-defined priority measure `p` on identifiers (lower wins
arbitration; frames with equal identifiers have equal measure).
`Can::transmit` appends the frame to the buffer (`submit`), possibly
evicting one strictly lower-priority buffered frame first when the buffer
is full (`submitEvict`).  The bus departs a buffered frame that wins
arbitration: no strictly higher-priority frame is buffered, and among
buffered frames of the same priority the earliest-queued departs first
(`depart`). -/
inductive TxStep (p : Id → Nat) : TxState → TxState → Prop
  | submit (s : TxState) (i : Id) :
      TxStep p s
        { buffer := s.buffer ++ [(s.counter, i)],
          departed := s.departed, counter := s.counter + 1 }
  | submitEvict (s : TxState) (i : Id) (pre post : List (Nat × Id)) (e : Nat × Id) :
      s.buffer = pre ++ e :: post →
      p i < p e.2 →
      TxStep p s
        { buffer := (pre ++ post) ++ [(s.counter, i)],
          departed := s.departed, counter := s.counter + 1 }
  | depart (s : TxState) (pre post : List (Nat × Id)) (e : Nat × Id) :
      s.buffer = pre ++ e :: post →
      (∀ x ∈ pre, p e.2 < p x.2) →
      (∀ x ∈ post, p e.2 ≤ p x.2) →
      TxStep p s
        { buffer := pre ++ post,
          departed := s.departed ++ [e], counter := s.counter }

/-- A transmit state reachable from the initial state. -/
def TxReachable (p : Id → Nat) (s : TxState) : Prop :=
  Relation.ReflTransGen (TxStep p) txInit s

lemma except_unit_eq_error {α : Type} (x : Except Unit α) (h : x.isOk = false) :
    x = .error () := by
  cases x with
  | error e => cases e; rfl
  | ok a => simp [Except.isOk, Except.toBool] at h

/-- C1: a frame is accepted by a filter with value `F` and mask `M` iff at
every bit position either the mask bit is 0 or the filter bit equals the
incoming bit; in particular filter `0b100110111` with mask `0b000001111`
rejects incoming `0b100110011` and accepts incoming `0b000000111`. -/
theorem mask_matching_characterisation :
    (∀ F M R : Nat, maskMatches F M R = true ↔
      ∀ i, M.testBit i = false ∨ F.testBit i = R.testBit i) ∧
    maskMatches 0b100110111 0b000001111 0b100110011 = false ∧
    maskMatches 0b100110111 0b000001111 0b000000111 = true := by
  refine ⟨?_, by decide, by decide⟩
  intro F M R
  show (F &&& M == R &&& M) = true ↔ _
  rw [beq_iff_eq]
  constructor
  · intro h i
    have hbit := congrArg (fun n => Nat.testBit n i) h
    simp only [Nat.testBit_land] at hbit
    cases hM : M.testBit i with
    | false => exact Or.inl rfl
    | true => right; simpa [hM] using hbit
  · intro h
    apply Nat.eq_of_testBit_eq
    intro i
    simp only [Nat.testBit_land]
    rcases h i with hM | hFR
    · simp [hM]
    · rw [hFR]

/-- C2: `Id::valid` is true on `Standard v` exactly when `v ≤ 0x7FF` and
on `Extended v` exactly when `v ≤ 0x1FFF_FFFF`. -/
theorem id_valid_characterisation (v : Nat) :
    ((Id.Standard v).valid = true ↔ v ≤ 0x7FF) ∧
    ((Id.Extended v).valid = true ↔ v ≤ 0x1FFFFFFF) := by
  constructor <;> · simp only [Id.valid]; split <;> simp_all

/-- C8: identifiers are equal iff they have the same variant tag and the
same numeric value; a `Standard` and an `Extended` identifier are never
equal, whatever their values. -/
theorem id_equality_structural (v w : Nat) :
    (Id.Standard v = Id.Standard w ↔ v = w) ∧
    (Id.Extended v = Id.Extended w ↔ v = w) ∧
    Id.Standard v ≠ Id.Extended w := by
  refine ⟨?_, ?_, ?_⟩ <;> simp

/-- C9: `is_standard` is the complement of `is_extended` and
`is_data_frame` is the complement of `is_remote_frame`, for every frame. -/
theorem frame_accessor_complementarity (f : Frame) :
    f.is_standard = !f.is_extended ∧ f.is_data_frame = !f.is_remote_frame :=
  ⟨rfl, rfl⟩

/-- C3: `Frame::new(id, data)` succeeds iff `id` is valid and `data` has
at most 8 bytes, and every successfully built frame has `dlc` equal to the
data length, the given data, and is a data frame. -/
theorem frame_new_characterisation (id : Id) (data : List Nat) :
    ((Frame.new id data).isOk = true ↔ (id.valid = true ∧ data.length ≤ 8)) ∧
    ∀ f, Frame.new id data = .ok f →
      f.dlc = data.length ∧ f.data = data ∧ f.is_data_frame = true := by
  unfold Frame.new
  split
  · exact ⟨by simp_all [Except.isOk, Except.toBool], fun f hf => by cases hf; exact ⟨rfl, rfl, rfl⟩⟩
  · exact ⟨by simp_all [Except.isOk, Except.toBool], fun f hf => by cases hf⟩

/-- Witness for C3 at a concrete valid identifier and 2-byte payload. -/
theorem frame_new_characterisation_witness :
    (⟨Id.Standard 3, false, 2, [5, 6]⟩ : Frame).dlc = ([5, 6] : List Nat).length ∧
    (⟨Id.Standard 3, false, 2, [5, 6]⟩ : Frame).data = [5, 6] ∧
    (⟨Id.Standard 3, false, 2, [5, 6]⟩ : Frame).is_data_frame = true :=
  (frame_new_characterisation (Id.Standard 3) [5, 6]).2 _ rfl

/-- C4: `Frame::new_remote(id, dlc)` succeeds iff `id` is valid and
`dlc ≤ 8`, and every successfully built frame has empty data, the given
`dlc`, and is a remote frame. -/
theorem frame_new_remote_characterisation (id : Id) (dlc : Nat) :
    ((Frame.new_remote id dlc).isOk = true ↔ (id.valid = true ∧ dlc ≤ 8)) ∧
    ∀ f, Frame.new_remote id dlc = .ok f →
      f.data = [] ∧ f.dlc = dlc ∧ f.is_remote_frame = true := by
  unfold Frame.new_remote
  split
  · exact ⟨by simp_all [Except.isOk, Except.toBool], fun f hf => by cases hf; exact ⟨rfl, rfl, rfl⟩⟩
  · exact ⟨by simp_all [Except.isOk, Except.toBool], fun f hf => by cases hf⟩

/-- Witness for C4 at a concrete valid extended identifier and DLC 4. -/
theorem frame_new_remote_characterisation_witness :
    (⟨Id.Extended 99, true, 4, []⟩ : Frame).data = [] ∧
    (⟨Id.Extended 99, true, 4, []⟩ : Frame).dlc = 4 ∧
    (⟨Id.Extended 99, true, 4, []⟩ : Frame).is_remote_frame = true :=
  (frame_new_remote_characterisation (Id.Extended 99) 4).2 _ rfl

/-- C10: construction failures carry no information — any two failing
calls of `Frame::new` / `Frame::new_remote` return equal values (the unit
error), so the caller cannot tell an invalid identifier from an oversize
payload or DLC. -/
theorem construction_failure_no_information (i1 i2 i3 : Id)
    (d1 d2 : List Nat) (n : Nat)
    (h1 : (Frame.new i1 d1).isOk = false)
    (h2 : (Frame.new i2 d2).isOk = false)
    (h3 : (Frame.new_remote i3 n).isOk = false) :
    Frame.new i1 d1 = Frame.new i2 d2 ∧
    Frame.new i1 d1 = Frame.new_remote i3 n := by
  rw [except_unit_eq_error _ h1, except_unit_eq_error _ h2,
    except_unit_eq_error _ h3]
  exact ⟨rfl, rfl⟩

/-- Witness for C10: an invalid-identifier failure, an oversize-payload
failure and an oversize-DLC failure all return the same value. -/
theorem construction_failure_no_information_witness :
    Frame.new (Id.Standard 0x800) [] =
      Frame.new (Id.Standard 0) [0, 0, 0, 0, 0, 0, 0, 0, 0] ∧
    Frame.new (Id.Standard 0x800) [] = Frame.new_remote (Id.Standard 0) 9 :=
  construction_failure_no_information _ _ _ _ _ _
    (by decide) (by decide) (by decide)

/-- C5: for a filter installed into a group whose behaviour is
`RemoteAlwaysAllowed`, `OnlyData` or `OnlyRemote`, `allow_remote()` and
`remote_only()` leave the filter's acceptance of every frame unchanged. -/
theorem rtr_refinement_noop (b : RtrFilterBehavior) (f : Filter) (fr : Frame)
    (hb : b = .RemoteAlwaysAllowed ∨ b = .OnlyData ∨ b = .OnlyRemote) :
    filterAccepts b f.allow_remote fr = filterAccepts b f fr ∧
    filterAccepts b f.remote_only fr = filterAccepts b f fr := by
  rcases f with ⟨fid, mask, disp⟩
  rcases hb with h | h | h <;> subst h <;> cases disp <;>
    exact ⟨rfl, rfl⟩

/-- Witness for C5 at behaviour `OnlyData`, a concrete filter and a
concrete remote frame. -/
theorem rtr_refinement_noop_witness :
    filterAccepts .OnlyData
        ((Filter.new (Id.Standard 1)).allow_remote)
        ⟨Id.Standard 1, true, 0, []⟩ =
      filterAccepts .OnlyData (Filter.new (Id.Standard 1))
        ⟨Id.Standard 1, true, 0, []⟩ ∧
    filterAccepts .OnlyData
        ((Filter.new (Id.Standard 1)).remote_only)
        ⟨Id.Standard 1, true, 0, []⟩ =
      filterAccepts .OnlyData (Filter.new (Id.Standard 1))
        ⟨Id.Standard 1, true, 0, []⟩ :=
  rtr_refinement_noop .OnlyData (Filter.new (Id.Standard 1))
    ⟨Id.Standard 1, true, 0, []⟩ (Or.inr (Or.inl rfl))

lemma extractFirst_none (q : Frame → Bool) (l : List Frame)
    (hq : ∀ x, q x = false) : extractFirst q l = none := by
  induction l with
  | nil => rfl
  | cons a l ih => simp [extractFirst, hq, ih]

lemma receive_no_filters (r : Receiver) (h : r.filters = []) :
    r.receive = (none, r) := by
  unfold Receiver.receive
  rw [extractFirst_none]
  · intro x
    simp [Receiver.admits, h]

lemma rxRun_no_filters (ops : List RxOp) : ∀ r : Receiver, r.filters = [] →
    (∀ f, RxOp.addFilter f ∉ ops) → (rxRun r ops).2 = [] := by
  induction ops with
  | nil => intro r _ _; rfl
  | cons op ops ih =>
    intro r hr hops
    have hops2 : ∀ f, RxOp.addFilter f ∉ ops := by
      intro f hf
      exact hops f (List.mem_cons_of_mem _ hf)
    cases op with
    | arrive fr =>
      simpa [rxRun, rxStep] using
        ih { r with pending := r.pending ++ [fr] } hr hops2
    | clearFilters =>
      simpa [rxRun, rxStep] using ih r.clear_filters rfl hops2
    | addFilter f =>
      exact absurd (List.mem_cons_self _ _) (hops f)
    | poll =>
      simpa [rxRun, rxStep, receive_no_filters r hr] using ih r hr hops2

/-- C6: after `clear_filters()`, a run of any operations that contains no
`add_filter` — frames arriving, further clears, `receive` polls — yields
no received frame at all: clearing the filters is a deny-all state for
the receive path. -/
theorem clear_filters_deny_all (r : Receiver) (ops : List RxOp)
    (h : ∀ f, RxOp.addFilter f ∉ ops) :
    (rxRun r.clear_filters ops).2 = [] :=
  rxRun_no_filters ops r.clear_filters rfl h

/-- Witness for C6: a receiver with an installed accept-all-like filter and
a pending frame is cleared; a further arrival and two polls yield nothing. -/
theorem clear_filters_deny_all_witness :
    (rxRun
      (Receiver.clear_filters
        ⟨.Configurable, [Filter.new (Id.Standard 1)],
          [⟨Id.Standard 1, false, 0, []⟩]⟩)
      [.arrive ⟨Id.Standard 1, false, 0, []⟩, .poll, .poll]).2 = [] :=
  clear_filters_deny_all _ _ (by intro f h; simp at h)

/-- The transmit-trace of a state: the departed frames (in departure
order) followed by the buffered frames (in queueing order). -/
def txTrace (s : TxState) : List (Nat × Id) :=
  s.departed ++ s.buffer

/-- The entries of a transmit trace whose identifier has priority
measure `k`. -/
def keyEntries (p : Id → Nat) (k : Nat) (l : List (Nat × Id)) :
    List (Nat × Id) :=
  l.filter (fun e => p e.2 == k)

/-- Invariant of the transmit path: every tag is below the submission
counter, and within each priority class the trace is strictly ordered by
submission tag. -/
structure TxInv (p : Id → Nat) (s : TxState) : Prop where
  bounded : ∀ e ∈ txTrace s, e.1 < s.counter
  classOrdered : ∀ k,
    (keyEntries p k (txTrace s)).Pairwise (fun a b => a.1 < b.1)

lemma keyEntries_append (p : Id → Nat) (k : Nat) (l₁ l₂ : List (Nat × Id)) :
    keyEntries p k (l₁ ++ l₂) = keyEntries p k l₁ ++ keyEntries p k l₂ := by
  simp [keyEntries, List.filter_append]

lemma classOrdered_append_fresh (p : Id → Nat) (l : List (Nat × Id))
    (n : Nat) (i : Id)
    (hl : ∀ k, (keyEntries p k l).Pairwise (fun a b => a.1 < b.1))
    (hn : ∀ e ∈ l, e.1 < n) (k : Nat) :
    (keyEntries p k (l ++ [(n, i)])).Pairwise (fun a b => a.1 < b.1) := by
  rw [keyEntries_append]
  apply List.pairwise_append.mpr
  refine ⟨hl k, ?_, ?_⟩
  · exact List.Pairwise.sublist (List.filter_sublist _)
      (List.pairwise_singleton _ _)
  · intro a ha b hb
    have ha2 : a ∈ l := List.mem_of_mem_filter ha
    have hb2 : b = (n, i) := by
      have := List.mem_of_mem_filter hb
      simpa using this
    rw [hb2]
    exact hn a ha2

lemma txInv_init (p : Id → Nat) : TxInv p txInit := by
  constructor
  · intro e he
    simp [txTrace, txInit] at he
  · intro k
    simp [keyEntries, txTrace, txInit]

lemma txInv_step (p : Id → Nat) {s t : TxState} (h : TxStep p s t)
    (hs : TxInv p s) : TxInv p t := by
  cases h with
  | submit i =>
    constructor
    · intro e he
      simp only [txTrace, ← List.append_assoc] at he
      rcases List.mem_append.mp he with h1 | h1
      · exact Nat.lt_succ_of_lt (hs.bounded e h1)
      · have : e = (s.counter, i) := by simpa using h1
        rw [this]
        exact Nat.lt_succ_self _
    · intro k
      simp only [txTrace, ← List.append_assoc]
      exact classOrdered_append_fresh p (s.departed ++ s.buffer) s.counter i
        hs.classOrdered hs.bounded k
  | submitEvict i pre post e hbuf hp =>
    have hsub : (s.departed ++ pre ++ post).Sublist (txTrace s) := by
      rw [txTrace, hbuf]
      have h1 : (pre ++ post).Sublist (pre ++ e :: post) :=
        List.Sublist.append (List.Sublist.refl _)
          (List.Sublist.cons e (List.Sublist.refl _))
      have h2 := List.Sublist.append (List.Sublist.refl s.departed) h1
      simp [List.append_assoc] at h2 ⊢
    constructor
    · intro x hx
      simp only [txTrace, ← List.append_assoc] at hx
      rcases List.mem_append.mp hx with h1 | h1
      · exact Nat.lt_succ_of_lt (hs.bounded x (hsub.subset h1))
      · have : x = (s.counter, i) := by simpa using h1
        rw [this]
        exact Nat.lt_succ_self _
    · intro k
      simp only [txTrace, ← List.append_assoc]
      apply classOrdered_append_fresh p (s.departed ++ pre ++ post)
        s.counter i
      · intro k2
        exact List.Pairwise.sublist (List.Sublist.filter _ hsub)
          (hs.classOrdered k2)
      · intro x hx
        exact hs.bounded x (hsub.subset hx)
  | depart pre post e hbuf hpre hpost =>
    have hkey : ∀ k,
        keyEntries p k ((s.departed ++ [e]) ++ (pre ++ post)) =
          keyEntries p k (txTrace s) := by
      intro k
      simp only [txTrace, hbuf, keyEntries_append]
      by_cases hk : p e.2 = k
      · have hpre0 : keyEntries p k pre = [] := by
          apply List.filter_eq_nil_iff.mpr
          intro x hx
          have hlt := hpre x hx
          simp only [beq_iff_eq]
          omega
        have : keyEntries p k (e :: post) =
            keyEntries p k [e] ++ keyEntries p k post := by
          simpa using keyEntries_append p k [e] post
        rw [this, hpre0]
        simp
      · have he0 : keyEntries p k [e] = [] := by
          simp [keyEntries, hk]
        have : keyEntries p k (e :: post) = keyEntries p k post := by
          have h2 := keyEntries_append p k [e] post
          simpa [he0] using h2
        rw [this, he0]
        simp
    constructor
    · intro x hx
      apply hs.bounded
      simp only [txTrace, hbuf, List.mem_append, List.mem_cons,
        List.mem_singleton] at hx ⊢
      tauto
    · intro k
      show List.Pairwise (fun a b => a.1 < b.1)
        (keyEntries p k ((s.departed ++ [e]) ++ (pre ++ post)))
      rw [hkey k]
      exact hs.classOrdered k

lemma txInv_reachable (p : Id → Nat) {s : TxState} (h : TxReachable p s) :
    TxInv p s := by
  induction h with
  | refl => exact txInv_init p
  | tail _ hstep ih => exact txInv_step p hstep ih

lemma pairwise_lt_sublist {l : List (Nat × Id)}
    (hl : l.Pairwise (fun a b => a.1 < b.1))
    {a b : Nat × Id} (ha : a ∈ l) (hb : b ∈ l) (hab : a.1 < b.1) :
    List.Sublist [a, b] l := by
  induction l with
  | nil => cases ha
  | cons x l ih =>
    rcases List.pairwise_cons.mp hl with ⟨hx, hl2⟩
    rcases List.mem_cons.mp ha with rfl | ha2
    · rcases List.mem_cons.mp hb with heq | hb2
      · rw [heq] at hab
        omega
      · exact List.cons_sublist_cons.mpr (List.singleton_sublist.mpr hb2)
    · rcases List.mem_cons.mp hb with rfl | hb2
      · have := hx a ha2
        omega
      · exact List.Sublist.cons x (ih hl2 ha2 hb2)

/-- C7: per-identifier FIFO on transmit — for any driver priority measure
and any reachable transmit state, if two frames with the same identifier
were submitted in tag order `tA < tB` (tags record submission order) and
both have departed, then the earlier submission appears before the later
one in the departure sequence: equal-identifier frames are never
reordered. -/
theorem transmit_fifo_per_identifier (p : Id → Nat) (s : TxState)
    (hs : TxReachable p s) (i : Id) (tA tB : Nat) (hlt : tA < tB)
    (hA : (tA, i) ∈ s.departed) (hB : (tB, i) ∈ s.departed) :
    List.Sublist [(tA, i), (tB, i)] s.departed := by
  have inv := txInv_reachable p hs
  have hsor := inv.classOrdered (p i)
  have hsplit : keyEntries p (p i) (txTrace s) =
      keyEntries p (p i) s.departed ++ keyEntries p (p i) s.buffer :=
    keyEntries_append p (p i) s.departed s.buffer
  rw [hsplit] at hsor
  have hsor2 : (keyEntries p (p i) s.departed).Pairwise
      (fun a b => a.1 < b.1) := (List.pairwise_append.mp hsor).1
  have hA2 : (tA, i) ∈ keyEntries p (p i) s.departed := by
    simp [keyEntries, List.mem_filter, hA]
  have hB2 : (tB, i) ∈ keyEntries p (p i) s.departed := by
    simp [keyEntries, List.mem_filter, hB]
  have hsub := pairwise_lt_sublist hsor2 hA2 hB2 hlt
  exact hsub.trans (List.filter_sublist _)

/-- Witness for C7: two frames with identifier `Standard 7` are submitted
and both depart; the departure list keeps submission order. -/
theorem transmit_fifo_per_identifier_witness :
    List.Sublist [(0, Id.Standard 7), (1, Id.Standard 7)]
      [(0, Id.Standard 7), (1, Id.Standard 7)] := by
  have h1 : TxStep (fun _ => 0) txInit
      { buffer := [(0, Id.Standard 7)], departed := [], counter := 1 } := by
    have := TxStep.submit (p := fun _ => 0) txInit (Id.Standard 7)
    simpa [txInit] using this
  have h2 : TxStep (fun _ => 0)
      { buffer := [(0, Id.Standard 7)], departed := [], counter := 1 }
      { buffer := [(0, Id.Standard 7), (1, Id.Standard 7)],
        departed := [], counter := 2 } := by
    have := TxStep.submit (p := fun _ => 0)
      { buffer := [(0, Id.Standard 7)], departed := [], counter := 1 }
      (Id.Standard 7)
    simpa using this
  have h3 : TxStep (fun _ => 0)
      { buffer := [(0, Id.Standard 7), (1, Id.Standard 7)],
        departed := [], counter := 2 }
      { buffer := [(1, Id.Standard 7)],
        departed := [(0, Id.Standard 7)], counter := 2 } := by
    have := TxStep.depart (p := fun _ => 0)
      { buffer := [(0, Id.Standard 7), (1, Id.Standard 7)],
        departed := [], counter := 2 }
      [] [(1, Id.Standard 7)] (0, Id.Standard 7) rfl
      (by intro x hx; cases hx) (by intro x hx; exact Nat.le_refl _)
    simpa using this
  have h4 : TxStep (fun _ => 0)
      { buffer := [(1, Id.Standard 7)],
        departed := [(0, Id.Standard 7)], counter := 2 }
      { buffer := [],
        departed := [(0, Id.Standard 7), (1, Id.Standard 7)],
        counter := 2 } := by
    have := TxStep.depart (p := fun _ => 0)
      { buffer := [(1, Id.Standard 7)],
        departed := [(0, Id.Standard 7)], counter := 2 }
      [] [] (1, Id.Standard 7) rfl
      (by intro x hx; cases hx) (by intro x hx; cases hx)
    simpa using this
  have hreach : TxReachable (fun _ => 0)
      { buffer := [],
        departed := [(0, Id.Standard 7), (1, Id.Standard 7)],
        counter := 2 } :=
    Relation.ReflTransGen.tail
      (Relation.ReflTransGen.tail
        (Relation.ReflTransGen.tail
          (Relation.ReflTransGen.tail Relation.ReflTransGen.refl h1) h2) h3) h4
  exact transmit_fifo_per_identifier (fun _ => 0) _ hreach (Id.Standard 7)
    0 1 (by decide) (by simp) (by simp)

end CanHal
